import Mathlib

/-!
Shallow embedding of `src/mp2024pkg/core.py` (repository guebin/mp2024_display).

The summarizer functions `show`, `show_list`, `show_dict` and the inner
helper `truncate_value` operate on arbitrary Python values and print lines
to standard output.  We model:

* a universe `PyVal` of the Python values the claims range over: integers,
  strings, lists, (insertion-ordered) dicts with string keys, generators
  (iterable, no `__len__`), `None`, and `pyBadLen` — an object whose
  `__len__` attribute exists but raises `TypeError` when called (so
  `hasattr(v, "__len__")` is true while `len(v)` raises);
* `str(v)` / `repr(v)` as `pyStrOf` / `pyReprOf` (for values whose repr
  contains a memory address — generators — the address is a fixed function
  of the object, so we render a fixed placeholder);
* printing as a `List String` of the arguments passed to `print`, plus an
  `Option PyErr` recording an exception escaping the call (`POut`).

A `pyGen xs` stands for a generator object at a point in time: `xs` are
the elements its iterator has yet to yield.  Within one call this is
stateless, but a Python generator is one-shot — every element the loop
pulls is gone for good — so a second call on the same object sees the
advanced iterator.  `genAfterShow` computes that advanced state, and the
round-trip theorems quantify over it explicitly.

Python semantics captured faithfully where the claims depend on it:
`len` raising `TypeError` is caught by the `except TypeError` clauses;
`item.keys()` raising anything is caught by the bare `except`; the
short-circuit in `idx >= max_head and idx < item_len - max_tail` evaluates
the subtraction only when `idx >= max_head`, so with `item_len = None` the
comparison raises `TypeError` exactly then; `str.split()` splits on runs
of whitespace and drops empty pieces.
-/

inductive PyErr where
  | typeError
  | attributeError
deriving DecidableEq

/-- The modelled universe of Python values. -/
inductive PyVal where
  | pyInt (n : Int)
  | pyStr (s : String)
  | pyList (xs : List PyVal)
  | pyDict (es : List (String × PyVal))
  | pyGen (xs : List PyVal)
  | pyBadLen
  | pyNone

/-- `type(v).__name__`. -/
def pyTypeName : PyVal → String
  | .pyInt _ => "int"
  | .pyStr _ => "str"
  | .pyList _ => "list"
  | .pyDict _ => "dict"
  | .pyGen _ => "generator"
  | .pyBadLen => "BadLen"
  | .pyNone => "NoneType"

mutual

/-- `repr(v)`. -/
def pyReprOf : PyVal → String
  | .pyInt n => toString n
  | .pyStr s => "'" ++ s ++ "'"
  | .pyList xs => "[" ++ String.intercalate ", " (pyReprMany xs) ++ "]"
  | .pyDict es => "\x7b" ++ String.intercalate ", " (pyReprPairs es) ++ "\x7d"
  | .pyGen _ => "<generator object>"
  | .pyBadLen => "<BadLen object>"
  | .pyNone => "None"

def pyReprMany : List PyVal → List String
  | [] => []
  | x :: xs => pyReprOf x :: pyReprMany xs

def pyReprPairs : List (String × PyVal) → List String
  | [] => []
  | (k, v) :: es => ("'" ++ k ++ "': " ++ pyReprOf v) :: pyReprPairs es

end

/-- `str(v)`: identical to `repr(v)` except on strings. -/
def pyStrOf : PyVal → String
  | .pyStr s => s
  | v => pyReprOf v

/-- `len(v)`: defined for strings, lists and dicts; raises `TypeError`
otherwise (including `pyBadLen`, whose `__len__` raises when invoked). -/
def pyLenE : PyVal → Except PyErr Nat
  | .pyStr s => .ok s.length
  | .pyList xs => .ok xs.length
  | .pyDict es => .ok es.length
  | _ => .error .typeError

/-- `hasattr(v, "__len__")`: true for strings, lists, dicts and `pyBadLen`. -/
def hasLenAttr : PyVal → Bool
  | .pyStr _ => true
  | .pyList _ => true
  | .pyDict _ => true
  | .pyBadLen => true
  | _ => false

/-- Iteration: `some` of the element sequence when `isinstance(v, Iterable)`
holds (strings yield their characters, dicts their keys), `none` otherwise. -/
def pyIter : PyVal → Option (List PyVal)
  | .pyStr s => some (s.toList.map fun c => .pyStr (String.singleton c))
  | .pyList xs => some xs
  | .pyDict es => some (es.map fun e => .pyStr e.1)
  | .pyGen xs => some xs
  | _ => none

/-- `try: len(v) except TypeError: None` — only `TypeError` is caught. -/
def tryLenTE (v : PyVal) : Except PyErr (Option Nat) :=
  match pyLenE v with
  | .ok n => .ok (some n)
  | .error .typeError => .ok none
  | .error e => .error e

/-- The value of `len(v)` when it succeeds. -/
def pyLenOpt (v : PyVal) : Option Nat :=
  match pyLenE v with
  | .ok n => some n
  | .error _ => none

/-- Accumulating splitter behind `pySplitWs`: `cur` holds the reversed
characters of the word being read. -/
def wordsAux : List Char → List Char → List String
  | [], cur => if cur.isEmpty then [] else [String.mk cur.reverse]
  | c :: cs, cur =>
    if c.isWhitespace then
      (if cur.isEmpty then [] else [String.mk cur.reverse]) ++ wordsAux cs []
    else
      wordsAux cs (c :: cur)

/-- `str.split()` with no argument: split on runs of whitespace, dropping
empty pieces (so leading, trailing and repeated whitespace produce no
empty words). -/
def pySplitWs (s : String) : List String :=
  wordsAux s.toList []

/-- The inner helper of `show`: keeps the first 100 and last 100
whitespace-separated words when there are more than 200 of them. -/
def truncateWords (value_str : String) : String :=
  let words := pySplitWs value_str
  if words.length > 200 then
    String.intercalate " " (words.take 100) ++ " ... " ++
      String.intercalate " " (words.drop (words.length - 100))
  else
    value_str

/-- `truncate_value(value)` from `show`: `str(value)` then word truncation. -/
def truncate_value (value : PyVal) : String :=
  truncateWords (pyStrOf value)

/-- The result of one call: the strings passed to `print`, in order, and
the exception escaping the call, if any. -/
structure POut where
  lines : List String
  err : Option PyErr
deriving DecidableEq

/-- Python's `repr` of a list of strings, used for `list(item.keys())`. -/
def strListRepr (ks : List String) : String :=
  "[" ++ String.intercalate ", " (ks.map fun k => "'" ++ k ++ "'") ++ "]"

/-- The test deciding whether `show`'s loop skips element `idx`:
`idx >= max_head_items and idx < item_len - max_tail_items`.
Python's `and` short-circuits, so `item_len - max_tail_items` is evaluated
only when `idx >= max_head_items`; with `item_len = None` that subtraction
raises `TypeError`.  The subtraction is on Python ints, hence `Int`. -/
def skipTest (max_head_items max_tail_items : Nat) (item_len : Option Nat)
    (idx : Nat) : Except PyErr Bool :=
  if idx < max_head_items then .ok false
  else
    match item_len with
    | none => .error .typeError
    | some L => .ok (decide ((idx : Int) < (L : Int) - (max_tail_items : Int)))

/-- The four (or three) strings `show`'s loop prints for a displayed element:
header, type, the length line when `len(subitem)` succeeded, and the
word-truncated value line. -/
def subitemShowLines (idx : Nat) (subitem : PyVal) (subitem_len : Option Nat) :
    List String :=
  ["\n" ++ toString (idx + 1) ++ ". list[" ++ toString idx ++ "]",
   "   - Type: " ++ pyTypeName subitem] ++
  (match subitem_len with
   | some n => ["   - Length: " ++ toString n]
   | none => []) ++
  ["   - Values: " ++ truncate_value subitem]

/-- The loop `for idx, subitem in enumerate(item)` of `show`'s iterable
branch, starting at index `idx`. -/
def showIterLoop (max_head_items max_tail_items : Nat) (item_len : Option Nat) :
    Nat → List PyVal → POut
  | _, [] => ⟨[], none⟩
  | idx, subitem :: rest =>
    match skipTest max_head_items max_tail_items item_len idx with
    | .error e => ⟨[], some e⟩
    | .ok true =>
      let dots : List String := if idx = max_head_items then ["..."] else []
      let r := showIterLoop max_head_items max_tail_items item_len (idx + 1) rest
      ⟨dots ++ r.lines, r.err⟩
    | .ok false =>
      match tryLenTE subitem with
      | .error e => ⟨[], some e⟩
      | .ok subitem_len =>
        let r := showIterLoop max_head_items max_tail_items item_len (idx + 1) rest
        ⟨subitemShowLines idx subitem subitem_len ++ r.lines, r.err⟩

/-- The `isinstance(item, Iterable)` branch of `show` (and its `else`,
printing the unsupported-type message). -/
def showIterBranch (item : PyVal) (max_head_items max_tail_items : Nat) : POut :=
  match pyIter item with
  | none => ⟨["Unsupported item type: " ++ pyTypeName item], none⟩
  | some elems =>
    match tryLenTE item with
    | .error e => ⟨[], some e⟩
    | .ok item_len =>
      let overview := "List Overview:" ::
        (match item_len with
         | some L => ["Total items: " ++ toString L]
         | none => [])
      let r := showIterLoop max_head_items max_tail_items item_len 0 elems
      ⟨overview ++ r.lines, r.err⟩

/-- The loop `for i, (k, v) in enumerate(item.items())` of `show`'s
dictionary branch.  `hasattr(v, "__len__")` guards the length line; when
`len(v)` then raises (as `pyBadLen`'s does), the exception escapes the loop
after the entry's first two lines were printed. -/
def showDictEntries : Nat → List (String × PyVal) → POut
  | _, [] => ⟨[], none⟩
  | i, (k, v) :: rest =>
    let l1 := toString (i + 1) ++ ". dict['" ++ k ++ "']"
    let l2 := "   - Type: " ++ pyTypeName v
    if hasLenAttr v then
      match pyLenE v with
      | .error e => ⟨[l1, l2], some e⟩
      | .ok n =>
        let r := showDictEntries (i + 1) rest
        ⟨[l1, l2, "   - Length: " ++ toString n,
          "   - Values: " ++ truncate_value v] ++ r.lines, r.err⟩
    else
      let r := showDictEntries (i + 1) rest
      ⟨[l1, l2, "   - Values: " ++ truncate_value v] ++ r.lines, r.err⟩

/-- The body of `show`'s `try:` block: `item.keys()` (an `AttributeError`
for every modelled value that is not a dict), then the dictionary overview
and the per-entry loop. -/
def showDictBranch (item : PyVal) : POut :=
  match item with
  | .pyDict es =>
    let r := showDictEntries 0 es
    ⟨["Dictionary Overview:",
      "Total keys: " ++ toString es.length,
      "Keys: " ++ strListRepr (es.map Prod.fst) ++ "\n"] ++ r.lines, r.err⟩
  | _ => ⟨[], some .attributeError⟩

/-- `show(item, max_depth=2, max_head_items=5, max_tail_items=5,
max_value_length=100000)`: the `try:` dictionary branch; on any exception
there the bare `except:` falls through to the iterable branch, after the
dictionary branch's partial output.  `max_depth` and `max_value_length`
are parameters of the source function that its body never reads. -/
def «show» (item : PyVal)
    (max_depth max_head_items max_tail_items max_value_length : Nat) : POut :=
  let d := showDictBranch item
  match d.err with
  | none => d
  | some _ =>
    let r := showIterBranch item max_head_items max_tail_items
    ⟨d.lines ++ r.lines, r.err⟩

/-- The strings `show_list`'s loop prints for a displayed element: as in
`show` but the value line is `"   - Value: "` with the untruncated `str`. -/
def subitemListLines (index : Nat) (item : PyVal) (item_len : Option Nat) :
    List String :=
  ["\n" ++ toString (index + 1) ++ ". list[" ++ toString index ++ "]",
   "   - Type: " ++ pyTypeName item] ++
  (match item_len with
   | some n => ["   - Length: " ++ toString n]
   | none => []) ++
  ["   - Value: " ++ pyStrOf item]

/-- The loop `for index, item in enumerate(items)` of `show_list`. -/
def showListLoop (max_head max_tail : Nat) (items_len : Option Nat) :
    Nat → List PyVal → POut
  | _, [] => ⟨[], none⟩
  | index, item :: rest =>
    match skipTest max_head max_tail items_len index with
    | .error e => ⟨[], some e⟩
    | .ok true =>
      let dots : List String := if index = max_head then ["..."] else []
      let r := showListLoop max_head max_tail items_len (index + 1) rest
      ⟨dots ++ r.lines, r.err⟩
    | .ok false =>
      match tryLenTE item with
      | .error e => ⟨[], some e⟩
      | .ok item_len =>
        let r := showListLoop max_head max_tail items_len (index + 1) rest
        ⟨subitemListLines index item item_len ++ r.lines, r.err⟩

/-- `show_list(items, max_depth=2, max_head=5, max_tail=5)`: overview, then
the head/tail loop.  There is no iterability check: `enumerate(items)` on a
non-iterable raises `TypeError` after the overview lines were printed.
`max_depth` is never read by the body. -/
def show_list (items : PyVal) (max_depth max_head max_tail : Nat) : POut :=
  match tryLenTE items with
  | .error e => ⟨[], some e⟩
  | .ok items_len =>
    let overview := "List Overview:" ::
      (match items_len with
       | some L => ["Total items: " ++ toString L]
       | none => [])
    match pyIter items with
    | none => ⟨overview, some .typeError⟩
    | some elems =>
      let r := showListLoop max_head max_tail items_len 0 elems
      ⟨overview ++ r.lines, r.err⟩

/-- The loop of `show_dict`, printing each entry with the untruncated value. -/
def showDictLoop : Nat → List (String × PyVal) → POut
  | _, [] => ⟨[], none⟩
  | i, (key, value) :: rest =>
    let l1 := toString (i + 1) ++ ". dict['" ++ key ++ "']"
    let l2 := "   - Type: " ++ pyTypeName value
    if hasLenAttr value then
      match pyLenE value with
      | .error e => ⟨[l1, l2], some e⟩
      | .ok n =>
        let r := showDictLoop (i + 1) rest
        ⟨[l1, l2, "   - Length: " ++ toString n,
          "   - Value: " ++ pyStrOf value] ++ r.lines, r.err⟩
    else
      let r := showDictLoop (i + 1) rest
      ⟨[l1, l2, "   - Value: " ++ pyStrOf value] ++ r.lines, r.err⟩

/-- `show_dict(dct)`: overview then per-entry lines; `dct.keys()` on a
non-dict raises `AttributeError` (not caught here). -/
def show_dict (dct : PyVal) : POut :=
  match dct with
  | .pyDict es =>
    let r := showDictLoop 0 es
    ⟨["Dictionary Overview:",
      "Total keys: " ++ toString es.length,
      "Keys: " ++ strListRepr (es.map Prod.fst) ++ "\n"] ++ r.lines, r.err⟩
  | _ => ⟨[], some .attributeError⟩

/-- The child entries `show`'s loop would print for consecutive elements
starting at index `i`, with no skipping: the specification-side rendering
used to state the head/tail-window theorems. -/
def childBlocks : Nat → List PyVal → List String
  | _, [] => []
  | i, e :: rest => subitemShowLines i e (pyLenOpt e) ++ childBlocks (i + 1) rest

/-- The first character of a string, used to tell the different kinds of
printed lines apart. -/
def firstChar (s : String) : Option Char :=
  s.data.head?

/-- The elements a generator holding `xs` still has after one call to
`show` iterated it: the `for` loop pulls one element from the iterator
before each run of its body.  With the generator's length query failing,
every pulled element at an index below `max_head_items` is displayed and
the loop continues; the pull at index `max_head_items` itself succeeds
but the body then raises on the absent length, ending the loop.  So the
call consumes `min (max_head_items + 1) xs.length` elements, i.e. the
object retains `xs.drop (max_head_items + 1)` — the state a second call
on the same generator starts from. -/
def genAfterShow (max_head_items : Nat) (xs : List PyVal) : List PyVal :=
  xs.drop (max_head_items + 1)

/-! ### Helper lemmas shared by the claim theorems -/

theorem tryLenTE_eq (v : PyVal) : tryLenTE v = .ok (pyLenOpt v) := by
  cases v <;> rfl

theorem pyLenOpt_eq_ok (v : PyVal) (n : Nat) :
    pyLenOpt v = some n ↔ pyLenE v = .ok n := by
  cases v <;> simp [pyLenOpt, pyLenE]

theorem hasLenAttr_of_pyLenOpt (v : PyVal) (n : Nat) (hv : pyLenOpt v = some n) :
    hasLenAttr v = true := by
  cases v <;> simp_all [pyLenOpt, pyLenE, hasLenAttr]

theorem skipTest_lt (h t : Nat) (il : Option Nat) (idx : Nat) (hlt : idx < h) :
    skipTest h t il idx = .ok false := by
  simp [skipTest, hlt]

theorem skipTest_none (h t idx : Nat) (hge : h ≤ idx) :
    skipTest h t none idx = .error .typeError := by
  unfold skipTest
  rw [if_neg (by omega)]

theorem skipTest_some (h t L idx : Nat) (hge : h ≤ idx) :
    skipTest h t (some L) idx =
      .ok (decide ((idx : Int) < (L : Int) - (t : Int))) := by
  unfold skipTest
  rw [if_neg (by omega)]

theorem show_gen_eq (xs : List PyVal) (d h t l : Nat) :
    «show» (.pyGen xs) d h t l =
      ⟨"List Overview:" :: (showIterLoop h t none 0 xs).lines,
       (showIterLoop h t none 0 xs).err⟩ := rfl

theorem show_pyList_eq (xs : List PyVal) (d h t l : Nat) :
    «show» (.pyList xs) d h t l =
      ⟨"List Overview:" :: ("Total items: " ++ toString xs.length) ::
        (showIterLoop h t (some xs.length) 0 xs).lines,
       (showIterLoop h t (some xs.length) 0 xs).err⟩ := rfl

theorem show_pyStr_eq (s : String) (d h t l : Nat) :
    «show» (.pyStr s) d h t l =
      ⟨"List Overview:" :: ("Total items: " ++ toString s.length) ::
        (showIterLoop h t (some s.length) 0
          (s.toList.map fun c => .pyStr (String.singleton c))).lines,
       (showIterLoop h t (some s.length) 0
          (s.toList.map fun c => .pyStr (String.singleton c))).err⟩ := rfl

theorem showIterLoop_head (h t : Nat) (il : Option Nat) (elems : List PyVal) :
    ∀ idx, idx + elems.length ≤ h →
      showIterLoop h t il idx elems = ⟨childBlocks idx elems, none⟩ := by
  induction elems with
  | nil => intro idx _; simp [showIterLoop, childBlocks]
  | cons e rest ih =>
    intro idx hle
    simp only [List.length_cons] at hle
    have hlt : idx < h := by omega
    have hih := ih (idx + 1) (by omega)
    simp [showIterLoop, skipTest_lt _ _ _ _ hlt, tryLenTE_eq, hih, childBlocks]

theorem showIterLoop_none_err (h t : Nat) (elems : List PyVal) :
    ∀ idx, idx ≤ h → h < idx + elems.length →
      (showIterLoop h t none idx elems).err = some .typeError := by
  induction elems with
  | nil => intro idx hle hgt; simp at hgt; omega
  | cons e rest ih =>
    intro idx hle hgt
    simp only [List.length_cons] at hgt
    rcases Nat.lt_or_ge idx h with hlt | hge
    · have hih := ih (idx + 1) (by omega) (by omega)
      simp [showIterLoop, skipTest_lt _ _ _ _ hlt, tryLenTE_eq, hih]
    · simp [showIterLoop, skipTest_none _ _ _ hge]

theorem showIterLoop_some_err (h t L : Nat) (elems : List PyVal) :
    ∀ idx, (showIterLoop h t (some L) idx elems).err = none := by
  induction elems with
  | nil => intro idx; simp [showIterLoop]
  | cons e rest ih =>
    intro idx
    rcases Nat.lt_or_ge idx h with hlt | hge
    · simp [showIterLoop, skipTest_lt _ _ _ _ hlt, tryLenTE_eq, ih]
    · rcases hb : decide ((idx : Int) < (L : Int) - (t : Int)) with _ | _ <;>
        simp [showIterLoop, skipTest_some _ _ _ _ hge, hb, tryLenTE_eq, ih]

theorem showIterLoop_tail (h t L : Nat) (hL : h + t < L) (elems : List PyVal) :
    ∀ idx, idx + elems.length = L → L - t ≤ idx →
      showIterLoop h t (some L) idx elems = ⟨childBlocks idx elems, none⟩ := by
  induction elems with
  | nil => intro idx _ _; simp [showIterLoop, childBlocks]
  | cons e rest ih =>
    intro idx hlen hge
    simp only [List.length_cons] at hlen
    have hgeh : h ≤ idx := by omega
    have hdec : decide ((idx : Int) < (L : Int) - (t : Int)) = false := by
      apply decide_eq_false
      omega
    have hih := ih (idx + 1) (by omega) (by omega)
    simp [showIterLoop, skipTest_some _ _ _ _ hgeh, hdec, tryLenTE_eq, hih,
      childBlocks]

theorem showIterLoop_skip (h t L : Nat) (hL : h + t < L) (elems : List PyVal) :
    ∀ idx, idx + elems.length = L → h ≤ idx → idx ≤ L - t →
      showIterLoop h t (some L) idx elems =
        ⟨(if idx = h then ["..."] else []) ++
          childBlocks (L - t) (elems.drop (L - t - idx)), none⟩ := by
  induction elems with
  | nil =>
    intro idx hlen hgeh hle
    simp only [List.length_nil] at hlen
    have hne : idx ≠ h := by omega
    simp [showIterLoop, childBlocks, hne]
  | cons e rest ih =>
    intro idx hlen hgeh hle
    simp only [List.length_cons] at hlen
    rcases Nat.lt_or_ge idx (L - t) with hlt | hge
    · have hdec : decide ((idx : Int) < (L : Int) - (t : Int)) = true := by
        apply decide_eq_true
        omega
      have hih := ih (idx + 1) (by omega) (by omega) (by omega)
      have hne : ¬ (idx + 1 = h) := by omega
      have hdrop : (e :: rest).drop (L - t - idx) = rest.drop (L - t - (idx + 1)) := by
        have : L - t - idx = (L - t - (idx + 1)) + 1 := by omega
        rw [this, List.drop_succ_cons]
      rw [← hdrop] at hih
      simp [showIterLoop, skipTest_some _ _ _ _ hgeh, hdec, hih, hne]
    · have heq : idx = L - t := by omega
      have htl := showIterLoop_tail h t L hL (e :: rest) idx
        (by simp only [List.length_cons]; omega) hge
      have hne : ¬ (idx = h) := by omega
      have hdrop : (e :: rest).drop (L - t - idx) = e :: rest := by
        rw [heq]
        simp
      rw [htl, hdrop, if_neg hne, heq]
      simp

theorem showIterLoop_split (h t L : Nat) (hL : h + t < L) (elems : List PyVal) :
    ∀ idx, idx + elems.length = L → idx ≤ h →
      showIterLoop h t (some L) idx elems =
        ⟨childBlocks idx (elems.take (h - idx)) ++ ["..."] ++
          childBlocks (L - t) (elems.drop (L - t - idx)), none⟩ := by
  induction elems with
  | nil =>
    intro idx hlen hle
    simp only [List.length_nil] at hlen
    omega
  | cons e rest ih =>
    intro idx hlen hle
    simp only [List.length_cons] at hlen
    rcases Nat.lt_or_ge idx h with hlt | hge
    · have hih := ih (idx + 1) (by omega) (by omega)
      have htake : (e :: rest).take (h - idx) = e :: rest.take (h - (idx + 1)) := by
        have : h - idx = (h - (idx + 1)) + 1 := by omega
        rw [this, List.take_succ_cons]
      have hdrop : (e :: rest).drop (L - t - idx) = rest.drop (L - t - (idx + 1)) := by
        have : L - t - idx = (L - t - (idx + 1)) + 1 := by omega
        rw [this, List.drop_succ_cons]
      rw [htake, hdrop]
      simp [showIterLoop, skipTest_lt _ _ _ _ hlt, tryLenTE_eq, hih, childBlocks]
    · have heq : idx = h := by omega
      have hsk := showIterLoop_skip h t L hL (e :: rest) idx (by simp; omega)
        hge (by omega)
      rw [hsk, heq]
      simp [childBlocks]

theorem firstChar_append (a b : String) (c : Char) (hc : firstChar a = some c) :
    firstChar (a ++ b) = some c := by
  unfold firstChar at *
  rw [String.data_append]
  cases ha : a.data with
  | nil => rw [ha] at hc; simp at hc
  | cons x xs =>
    rw [ha] at hc
    simp at hc
    simp [hc]

theorem ne_of_firstChar (a b : String) (hab : firstChar a ≠ firstChar b) :
    a ≠ b := by
  intro hcontra
  exact hab (congrArg firstChar hcontra)

theorem firstChar_header (a b : String) :
    firstChar ("\n" ++ a ++ ". list[" ++ b ++ "]") = some '\n' :=
  firstChar_append _ _ _ (firstChar_append _ _ _ (firstChar_append _ _ _
    (firstChar_append _ _ _ rfl)))

theorem subitemShowLines_firstChar (idx : Nat) (e : PyVal) (ln : Option Nat)
    (l : String) (hl : l ∈ subitemShowLines idx e ln) :
    firstChar l = some '\n' ∨ firstChar l = some ' ' := by
  rcases ln with _ | n <;> simp [subitemShowLines] at hl
  · rcases hl with rfl | rfl | rfl
    · exact Or.inl (firstChar_header _ _)
    · exact Or.inr (firstChar_append _ _ _ rfl)
    · exact Or.inr (firstChar_append _ _ _ rfl)
  · rcases hl with rfl | rfl | rfl | rfl
    · exact Or.inl (firstChar_header _ _)
    · exact Or.inr (firstChar_append _ _ _ rfl)
    · exact Or.inr (firstChar_append _ _ _ rfl)
    · exact Or.inr (firstChar_append _ _ _ rfl)

theorem childBlocks_firstChar (xs : List PyVal) :
    ∀ i l, l ∈ childBlocks i xs →
      firstChar l = some '\n' ∨ firstChar l = some ' ' := by
  induction xs with
  | nil => intro i l hl; simp [childBlocks] at hl
  | cons e rest ih =>
    intro i l hl
    simp only [childBlocks, List.mem_append] at hl
    rcases hl with hsub | hrest
    · exact subitemShowLines_firstChar i e (pyLenOpt e) l hsub
    · exact ih (i + 1) l hrest

theorem childBlocks_count_dots (xs : List PyVal) (i : Nat) :
    (childBlocks i xs).count "..." = 0 := by
  rw [List.count_eq_zero]
  intro hmem
  rcases childBlocks_firstChar xs i "..." hmem with hc | hc <;> simp [firstChar] at hc

theorem showIterLoop_lines_firstChar (h t : Nat) (il : Option Nat)
    (elems : List PyVal) :
    ∀ idx l, l ∈ (showIterLoop h t il idx elems).lines →
      firstChar l = some '\n' ∨ firstChar l = some ' ' ∨ firstChar l = some '.' := by
  induction elems with
  | nil => intro idx l hl; simp [showIterLoop] at hl
  | cons e rest ih =>
    intro idx l hl
    rcases hsk : skipTest h t il idx with e' | b
    · simp [showIterLoop, hsk] at hl
    · rcases b
      · simp only [showIterLoop, hsk, tryLenTE_eq] at hl
        simp at hl
        rcases hl with hsub | hrest
        · rcases subitemShowLines_firstChar idx e (pyLenOpt e) l hsub with hc | hc
          · exact Or.inl hc
          · exact Or.inr (Or.inl hc)
        · exact ih (idx + 1) l hrest
      · simp only [showIterLoop, hsk] at hl
        simp at hl
        by_cases hidx : idx = h
        · subst hidx
          simp at hl
          rcases hl with rfl | hrest
          · exact Or.inr (Or.inr rfl)
          · exact ih (idx + 1) l hrest
        · simp [hidx] at hl
          exact ih (idx + 1) l hl

theorem showDictEntries_spec (es : List (String × PyVal)) :
    ∀ i, (∀ kv ∈ es, hasLenAttr kv.2 = true → (pyLenOpt kv.2).isSome) →
      showDictEntries i es =
        ⟨((List.enumFrom i es).map fun p =>
            [toString (p.1 + 1) ++ ". dict['" ++ p.2.1 ++ "']",
             "   - Type: " ++ pyTypeName p.2.2] ++
            (match pyLenOpt p.2.2 with
             | some n => ["   - Length: " ++ toString n]
             | none => []) ++
            ["   - Values: " ++ truncate_value p.2.2]).flatten, none⟩ := by
  induction es with
  | nil => intro i _; simp [showDictEntries, List.enumFrom]
  | cons kv rest ih =>
    intro i hok
    obtain ⟨k, v⟩ := kv
    have hokv := hok (k, v) (List.mem_cons_self _ _)
    have hrest : ∀ kv ∈ rest, hasLenAttr kv.2 = true → (pyLenOpt kv.2).isSome :=
      fun kv hkv => hok kv (List.mem_cons_of_mem _ hkv)
    by_cases hattr : hasLenAttr v = true
    · obtain ⟨n, hn⟩ := Option.isSome_iff_exists.mp (hokv hattr)
      have hlen : pyLenE v = .ok n := (pyLenOpt_eq_ok v n).mp hn
      simp [showDictEntries, hattr, hlen, List.enumFrom, ih (i + 1) hrest, hn]
    · have hnone : pyLenOpt v = none := by
        cases hpo : pyLenOpt v with
        | none => rfl
        | some n => exact absurd (hasLenAttr_of_pyLenOpt v n hpo) hattr
      simp [showDictEntries, hattr, List.enumFrom, ih (i + 1) hrest, hnone]

/-! ### Claim theorems -/

/-- C1, counterexample: a generator fails the size query, yet `show` still
iterates it — on a one-element generator a child entry is produced and the
call completes, and on a six-element generator the call raises `TypeError`
instead of completing.  This refutes "the value is never iterated, no
children are produced, and the call completes without raising". -/
theorem show_sizeless_iterated_cex :
    «show» (.pyGen [.pyInt 0]) 2 5 5 100000 =
      ⟨["List Overview:", "\n1. list[0]", "   - Type: int", "   - Values: 0"],
       none⟩
    ∧ («show» (.pyGen [.pyInt 0, .pyInt 1, .pyInt 2, .pyInt 3, .pyInt 4,
        .pyInt 5]) 2 5 5 100000).err = some .typeError :=
  ⟨rfl, rfl⟩

/-- C1, amended: when the size query fails, `length` is indeed reported
absent (no "Total items:" line is printed); but if such a value is iterable
it is still iterated: its first `max_head_items` elements are shown as
children and the call completes, while with more than `max_head_items`
elements the call raises `TypeError` when the loop compares the index
against the absent length. -/
theorem show_sizeless_amended (xs : List PyVal) (d h t l : Nat) :
    (∀ L : Nat, ("Total items: " ++ toString L) ∉ («show» (.pyGen xs) d h t l).lines)
    ∧ (xs.length ≤ h →
        «show» (.pyGen xs) d h t l = ⟨"List Overview:" :: childBlocks 0 xs, none⟩)
    ∧ (h < xs.length →
        («show» (.pyGen xs) d h t l).err = some .typeError) := by
  refine ⟨?_, ?_, ?_⟩
  · intro L hmem
    have h1 : firstChar ("Total items: " ++ toString L) = some 'T' :=
      firstChar_append _ _ _ rfl
    rw [show_gen_eq] at hmem
    rcases List.mem_cons.mp hmem with heq | hloop
    · rw [heq] at h1
      exact absurd h1 (by decide)
    · rcases showIterLoop_lines_firstChar h t none xs 0 _ hloop with hc | hc | hc <;>
        rw [h1] at hc <;> exact absurd hc (by decide)
  · intro hle
    rw [show_gen_eq, showIterLoop_head h t none xs 0 (by omega)]
  · intro hgt
    rw [show_gen_eq]
    exact showIterLoop_none_err h t xs 0 (by omega) (by omega)

/-- C4, counterexample: an error is propagated past `show`'s boundary — on
a size-less iterable of six elements the loop's comparison against the
absent length raises `TypeError`, which escapes the call.  This refutes
"no error is propagated to the caller". -/
theorem show_raises_cex :
    («show» (.pyGen [.pyStr "q", .pyStr "q", .pyStr "q", .pyStr "q",
      .pyStr "q", .pyStr "q"]) 2 5 5 100000).err = some .typeError :=
  rfl

/-- C4, amended: a `TypeError` from the length query is handled by treating
the value as size-less (a list element whose `__len__` raises gets no
length line and aborts nothing), and summarizing a sized list never
raises; but the containment is not total: on a size-less iterable with
more than `max_head_items` elements the iterable branch itself raises a
`TypeError` that escapes to the caller. -/
theorem show_error_containment_amended (xs : List PyVal) (d h t l : Nat) :
    («show» (.pyList xs) d h t l).err = none
    ∧ (h < xs.length → («show» (.pyGen xs) d h t l).err = some .typeError)
    ∧ «show» (.pyList [.pyBadLen]) 2 5 5 100000 =
        ⟨["List Overview:", "Total items: 1", "\n1. list[0]",
          "   - Type: BadLen", "   - Values: <BadLen object>"], none⟩
    ∧ «show» .pyBadLen d h t l = ⟨["Unsupported item type: BadLen"], none⟩ := by
  refine ⟨?_, ?_, by decide, rfl⟩
  · rw [show_pyList_eq]
    exact showIterLoop_some_err h t xs.length xs 0
  · intro hgt
    rw [show_gen_eq]
    exact showIterLoop_none_err h t xs 0 (by omega) (by omega)

/-- C7, counterexample: a plain string passed to `show` IS traversed
character by character — `isinstance(str, Iterable)` holds, so `"abc"`
produces one child entry per character.  This refutes "a plain string
passed to show is not traversed character by character". -/
theorem show_string_traversed_cex :
    «show» (.pyStr "abc") 2 5 5 100000 =
      ⟨["List Overview:", "Total items: 3",
        "\n1. list[0]", "   - Type: str", "   - Length: 1", "   - Values: a",
        "\n2. list[1]", "   - Type: str", "   - Length: 1", "   - Values: b",
        "\n3. list[2]", "   - Type: str", "   - Length: 1", "   - Values: c"],
       none⟩ :=
  rfl

/-- C7, amended: child entries are produced exactly for non-dictionary
values that are iterable in Python's sense — which includes text strings,
traversed character by character — while non-iterable values produce no
children and only the unsupported-type message; a known length is not
required for children (see C1). -/
theorem show_children_condition_amended (s : String) (n : Int) (d h t l : Nat) :
    «show» (.pyInt n) d h t l = ⟨["Unsupported item type: int"], none⟩
    ∧ «show» .pyNone d h t l = ⟨["Unsupported item type: NoneType"], none⟩
    ∧ (s.length ≤ h →
        «show» (.pyStr s) d h t l =
          ⟨"List Overview:" :: ("Total items: " ++ toString s.length) ::
            childBlocks 0 (s.toList.map fun c => .pyStr (String.singleton c)),
           none⟩) := by
  refine ⟨rfl, rfl, ?_⟩
  intro hle
  rw [show_pyStr_eq, showIterLoop_head h t (some s.length) _ 0
    (by simp only [List.length_map, Nat.zero_add]; exact hle)]

/-- C9: the output of `show` does not depend on `max_depth` or
`max_value_length`, and the output of `show_list` does not depend on
`max_depth`: the function bodies never read those parameters. -/
theorem show_params_independent (item items : PyVal)
    (max_depth max_depth' max_head_items max_tail_items
      max_value_length max_value_length' : Nat) :
    «show» item max_depth max_head_items max_tail_items max_value_length =
      «show» item max_depth' max_head_items max_tail_items max_value_length'
    ∧ show_list items max_depth max_head_items max_tail_items =
        show_list items max_depth' max_head_items max_tail_items :=
  ⟨rfl, rfl⟩

/-- C10: an exception inside `show`'s dictionary branch is caught by the
bare `except` and control falls to the iterable branch: a dict holding a
value whose `__len__` raises yields partial dictionary-style output
immediately followed by complete list-style output in the same call, with
no exception propagated; in general, whenever the dictionary branch
raises, `show`'s result is the branch's partial lines followed by the
iterable branch's result, whose error (not the dictionary branch's) is
the one that may escape. -/
theorem show_dict_branch_fallthrough :
    («show» (.pyDict [("k", .pyBadLen)]) 2 5 5 100000 =
      ⟨["Dictionary Overview:", "Total keys: 1", "Keys: ['k']\n",
        "1. dict['k']", "   - Type: BadLen",
        "List Overview:", "Total items: 1",
        "\n1. list[0]", "   - Type: str", "   - Length: 1", "   - Values: k"],
       none⟩)
    ∧ ∀ (item : PyVal) (d h t l : Nat) (e : PyErr),
        (showDictBranch item).err = some e →
        «show» item d h t l =
          ⟨(showDictBranch item).lines ++ (showIterBranch item h t).lines,
           (showIterBranch item h t).err⟩ := by
  refine ⟨by decide, ?_⟩
  intro item d h t l e he
  simp only [«show», he]

/-- C2: for a sized sequence of length `L` strictly above
`max_head_items + max_tail_items`, `show` prints the length, then child
entries for exactly the indices `[0, max_head_items)`, then a single
ellipsis line, then child entries for exactly `[L - max_tail_items, L)`;
the "..." line is the only one in the whole output. -/
theorem show_head_tail_window (xs : List PyVal)
    (max_head_items max_tail_items max_depth max_value_length : Nat)
    (hL : max_head_items + max_tail_items < xs.length) :
    «show» (.pyList xs) max_depth max_head_items max_tail_items max_value_length =
      ⟨"List Overview:" :: ("Total items: " ++ toString xs.length) ::
        (childBlocks 0 (xs.take max_head_items) ++ ["..."] ++
          childBlocks (xs.length - max_tail_items)
            (xs.drop (xs.length - max_tail_items))), none⟩
    ∧ («show» (.pyList xs) max_depth max_head_items max_tail_items
        max_value_length).lines.count "..." = 1 := by
  have hsplit := showIterLoop_split max_head_items max_tail_items xs.length hL
    xs 0 (by omega) (by omega)
  simp only [Nat.sub_zero] at hsplit
  have hA : ¬ ("List Overview:" = "...") := by decide
  have hT : firstChar ("Total items: " ++ toString xs.length) = some 'T' :=
    firstChar_append "Total items: " _ _ rfl
  have hB : ¬ ("Total items: " ++ toString xs.length = "...") :=
    ne_of_firstChar _ _ (by rw [hT]; decide)
  constructor
  · rw [show_pyList_eq, hsplit]
  · rw [show_pyList_eq, hsplit]
    simp [List.count_cons, List.count_append, childBlocks_count_dots, hA, hB]

/-- C2, witness: the spec's example — the twelve integers 0..11 with
`max_head_items = 5` and `max_tail_items = 5` yield the reported length 12,
children for indices 0-4 and 7-11 and one ellipsis line between them. -/
theorem show_head_tail_window_witness :
    «show» (.pyList ((List.range 12).map fun n => .pyInt (n : Int))) 2 5 5 100000 =
      ⟨["List Overview:", "Total items: 12",
        "\n1. list[0]", "   - Type: int", "   - Values: 0",
        "\n2. list[1]", "   - Type: int", "   - Values: 1",
        "\n3. list[2]", "   - Type: int", "   - Values: 2",
        "\n4. list[3]", "   - Type: int", "   - Values: 3",
        "\n5. list[4]", "   - Type: int", "   - Values: 4",
        "...",
        "\n8. list[7]", "   - Type: int", "   - Values: 7",
        "\n9. list[8]", "   - Type: int", "   - Values: 8",
        "\n10. list[9]", "   - Type: int", "   - Values: 9",
        "\n11. list[10]", "   - Type: int", "   - Values: 10",
        "\n12. list[11]", "   - Type: int", "   - Values: 11"], none⟩ :=
  ((show_head_tail_window ((List.range 12).map fun n => .pyInt (n : Int))
    5 5 2 100000 (by decide)).1).trans (by decide)

/-- C3, counterexample: a single word of 101 characters exceeds both
claimed character thresholds (50 and 100), yet its preview is the full
representation — not strictly shorter, and with no prefix/suffix/ellipsis
split — both through `truncate_value` and in `show_list`'s value line.
This refutes the claimed character-threshold truncation. -/
theorem truncate_no_char_threshold_cex :
    50 < (pyStrOf (.pyStr (String.mk (List.replicate 101 'a')))).length
    ∧ 100 < (pyStrOf (.pyStr (String.mk (List.replicate 101 'a')))).length
    ∧ truncate_value (.pyStr (String.mk (List.replicate 101 'a'))) =
        pyStrOf (.pyStr (String.mk (List.replicate 101 'a')))
    ∧ ("   - Value: " ++ String.mk (List.replicate 101 'a')) ∈
        (show_list (.pyList [.pyStr (String.mk (List.replicate 101 'a'))])
          2 5 5).lines := by
  refine ⟨by decide, by decide, by decide, by decide⟩

/-- C3, amended: there is no character-count threshold.  Previews are
truncated only by word count: any representation of at most 200
whitespace-separated words is rendered verbatim by `truncate_value`
regardless of its character length, and `show_list` always prints the
full untruncated representation in its value line. -/
theorem truncate_word_only_amended (v : PyVal)
    (hw : (pySplitWs (pyStrOf v)).length ≤ 200) :
    truncate_value v = pyStrOf v
    ∧ ("   - Value: " ++ pyStrOf v) ∈ (show_list (.pyList [v]) 2 5 5).lines := by
  constructor
  · simp only [truncate_value, truncateWords]
    rw [if_neg (by omega)]
  · rcases hl : pyLenOpt v with _ | n <;>
      simp [show_list, tryLenTE_eq, pyIter, showListLoop, skipTest,
        subitemListLines, hl]

/-- C3, witness for the amendment: the 101-character single word is ≤ 200
words, so it is rendered verbatim in both places. -/
theorem truncate_word_only_amended_witness :
    truncate_value (.pyStr (String.mk (List.replicate 101 'a'))) =
      pyStrOf (.pyStr (String.mk (List.replicate 101 'a')))
    ∧ ("   - Value: " ++ pyStrOf (.pyStr (String.mk (List.replicate 101 'a')))) ∈
        (show_list (.pyList [.pyStr (String.mk (List.replicate 101 'a'))])
          2 5 5).lines :=
  truncate_word_only_amended (.pyStr (String.mk (List.replicate 101 'a')))
    (by decide)

/-- C5: `truncate_value` splits the representation on whitespace; with
strictly more than 200 words it returns exactly the first 100 words and
the last 100 words joined by the ellipsis marker " ... ", and with at most
200 words it returns the representation unchanged. -/
theorem truncate_value_word_policy (value : PyVal) :
    (200 < (pySplitWs (pyStrOf value)).length →
      truncate_value value =
        String.intercalate " " ((pySplitWs (pyStrOf value)).take 100) ++
          " ... " ++
          String.intercalate " " ((pySplitWs (pyStrOf value)).drop
            ((pySplitWs (pyStrOf value)).length - 100)))
    ∧ ((pySplitWs (pyStrOf value)).length ≤ 200 →
        truncate_value value = pyStrOf value) := by
  simp only [truncate_value, truncateWords]
  constructor
  · intro hgt
    rw [if_pos hgt]
  · intro hle
    rw [if_neg (by omega)]

/-- C6, counterexample: the per-entry description does not hold for every
dictionary-like value — a dict holding a value whose `__len__` raises gets
a truncated entry: after that entry's header and type line the length
query raises, no preview line for it is ever printed, and the call falls
through to list-style output over the dict's keys.  This refutes "exactly
one entry per key-value pair giving the value's type name, its length
when the value has one, and a preview of the value". -/
theorem show_dict_entry_cex :
    «show» (.pyDict [("a", .pyInt 1), ("b", .pyBadLen)]) 2 5 5 100000 =
      ⟨["Dictionary Overview:", "Total keys: 2", "Keys: ['a', 'b']\n",
        "1. dict['a']", "   - Type: int", "   - Values: 1",
        "2. dict['b']", "   - Type: BadLen",
        "List Overview:", "Total items: 2",
        "\n1. list[0]", "   - Type: str", "   - Length: 1", "   - Values: a",
        "\n2. list[1]", "   - Type: str", "   - Length: 1", "   - Values: b"],
       none⟩
    ∧ ("   - Values: " ++ truncate_value .pyBadLen) ∉
        («show» (.pyDict [("a", .pyInt 1), ("b", .pyBadLen)])
          2 5 5 100000).lines :=
  ⟨by decide, by decide⟩

/-- C6, amended: for a dictionary all of whose values answer `len`
successfully whenever they advertise `__len__`, `show` reports the total
key count, the full key list in insertion order, and then exactly one
block per key-value pair with the value's type name, its length when it
has one, and its (word-truncated) preview; an entry value whose `__len__`
raises instead cuts its entry short after the type line and the call
falls through to list-style output (see the counterexample). -/
theorem show_dict_summary (es : List (String × PyVal))
    (max_depth max_head_items max_tail_items max_value_length : Nat)
    (hok : ∀ kv ∈ es, hasLenAttr kv.2 = true → (pyLenOpt kv.2).isSome) :
    «show» (.pyDict es) max_depth max_head_items max_tail_items
        max_value_length =
      ⟨"Dictionary Overview:" :: ("Total keys: " ++ toString es.length) ::
        ("Keys: " ++ strListRepr (es.map Prod.fst) ++ "\n") ::
        (es.enum.map fun p =>
          [toString (p.1 + 1) ++ ". dict['" ++ p.2.1 ++ "']",
           "   - Type: " ++ pyTypeName p.2.2] ++
          (match pyLenOpt p.2.2 with
           | some n => ["   - Length: " ++ toString n]
           | none => []) ++
          ["   - Values: " ++ truncate_value p.2.2]).flatten, none⟩ := by
  have hspec := showDictEntries_spec es 0 hok
  simp only [«show», showDictBranch, hspec, List.enum]
  rfl

/-- C6, witness: the spec's example dictionary: two keys are reported and
listed, "a" gets type list, length 3 and the preview "[1, 2, 3]", and "b"
gets type str with its short value untruncated. -/
theorem show_dict_summary_witness :
    «show» (.pyDict [("a", .pyList [.pyInt 1, .pyInt 2, .pyInt 3]),
        ("b", .pyStr "x")]) 2 5 5 100000 =
      ⟨["Dictionary Overview:", "Total keys: 2", "Keys: ['a', 'b']\n",
        "1. dict['a']", "   - Type: list", "   - Length: 3",
        "   - Values: [1, 2, 3]",
        "2. dict['b']", "   - Type: str", "   - Length: 1",
        "   - Values: x"], none⟩ :=
  (show_dict_summary [("a", .pyList [.pyInt 1, .pyInt 2, .pyInt 3]),
    ("b", .pyStr "x")] 2 5 5 100000 (by decide)).trans (by decide)

/-- C8, counterexample: summarizing the same value twice with identical
parameters is NOT always byte-identical.  A generator is one-shot: the
first call on a one-element generator iterates it (printing its child
entry) and exhausts it, so the second call on the same — now advanced —
generator object (`genAfterShow` gives its remaining elements) prints
only the overview line.  This refutes the round-trip property as stated
over all input values. -/
theorem show_generator_roundtrip_cex :
    «show» (.pyGen [.pyStr "ab"]) 2 5 5 100000 =
      ⟨["List Overview:", "\n1. list[0]", "   - Type: str", "   - Length: 2",
        "   - Values: ab"], none⟩
    ∧ «show» (.pyGen (genAfterShow 5 [.pyStr "ab"])) 2 5 5 100000 =
      ⟨["List Overview:"], none⟩
    ∧ «show» (.pyGen [.pyStr "ab"]) 2 5 5 100000 ≠
        «show» (.pyGen (genAfterShow 5 [.pyStr "ab"])) 2 5 5 100000 :=
  ⟨by decide, by decide, by decide⟩

/-- C8, amended: two invocations with identical parameters are
byte-identical for every value that is not a one-shot iterator — such a
value carries no iterator state, so the second call sees the identical
value and the output, a function of value and parameters, repeats — and
a dictionary's key list is printed in the mapping's own insertion order;
but a generator is consumed by the first call: a second call on the same
generator object (whose iterator has advanced past the elements the
first call pulled) prints only the overview line, so the round trip
fails on one-shot iterables. -/
theorem show_roundtrip_amended (v : PyVal) (d h t l : Nat)
    (es : List (String × PyVal)) (xs : List PyVal) :
    ((∀ ys : List PyVal, v ≠ .pyGen ys) →
      «show» v d h t l = «show» v d h t l)
    ∧ ("Keys: " ++ strListRepr (es.map Prod.fst) ++ "\n") ∈
        («show» (.pyDict es) d h t l).lines
    ∧ (0 < xs.length → xs.length ≤ h →
        «show» (.pyGen xs) d h t l =
            ⟨"List Overview:" :: childBlocks 0 xs, none⟩
          ∧ «show» (.pyGen (genAfterShow h xs)) d h t l =
            ⟨["List Overview:"], none⟩
          ∧ «show» (.pyGen xs) d h t l ≠
            «show» (.pyGen (genAfterShow h xs)) d h t l) := by
  refine ⟨fun _ => rfl, ?_, ?_⟩
  · rcases herr : (showDictEntries 0 es).err with _ | e <;>
      simp [«show», showDictBranch, herr]
  · intro hpos hle
    have h1 : «show» (.pyGen xs) d h t l =
        ⟨"List Overview:" :: childBlocks 0 xs, none⟩ := by
      rw [show_gen_eq, showIterLoop_head h t none xs 0 (by omega)]
    have hnil : genAfterShow h xs = [] := by
      unfold genAfterShow
      exact List.drop_eq_nil_of_le (by omega)
    have h2 : «show» (.pyGen (genAfterShow h xs)) d h t l =
        ⟨["List Overview:"], none⟩ := by
      rw [hnil]
      rfl
    refine ⟨h1, h2, ?_⟩
    rw [h1, h2]
    intro hcontra
    have hlines := congrArg POut.lines hcontra
    simp only [POut.mk.injEq] at hlines
    have hcb : childBlocks 0 xs = [] := by
      have := congrArg List.tail hlines
      simpa using this
    cases xs with
    | nil => simp at hpos
    | cons e rest =>
      rcases hl : pyLenOpt e with _ | n <;>
        simp [childBlocks, subitemShowLines, hl] at hcb
